import Mathlib

/-!
# Verification of the tiflow CDC pipeline core

Shallow embedding of the DDL job puller (`cdc/puller/ddl_puller.go`), the
source manager's split-update predicate
(`cdc/processor/sourcemanager/manager.go`), and the MySQL sink backend
(the `package mysql` portion of `dm/syncer/checkpoint_test.go`: accept /
prepare-DML / flush-with-retry), together with theorems settling the
spec's claims about them.

Timestamps are `uint64` in the source; they are only ever compared (never
added or multiplied), so they are embedded as `Nat`.  Identifiers
(`int64` table/schema/job ids) are embedded as `Int`.
-/

/-- TiDB TSO timestamp (`uint64` in Go; only compared, so `Nat`). -/
abbrev Ts := Nat

namespace Tiflow

/-! ## Raw KV entries -/

/-- `model.OpType` of a raw KV entry. -/
inductive OpType where
  | put
  | delete
  | resolved
deriving DecidableEq, Repr

/-- `model.RawKVEntry`: a raw entry from the KV event stream.
`value`/`oldValue` are byte strings; only their emptiness is ever
inspected by the embedded code, and they are kept as `List Nat`. -/
structure RawKVEntry where
  opType : OpType
  key : List Nat
  value : List Nat
  oldValue : List Nat
  startTs : Ts
  crts : Ts
deriving DecidableEq, Repr

/-- Modelled from the spec: `RawKVEntry.IsUpdate` (package `cdc/model`) is
not under src/.  Per the spec's data model an UPDATE row change carries
both pre (`old_value`) and post (`value`) images, and row changes arrive
as `PUT` entries; so an entry is an update when it is a `PUT` carrying a
non-empty value and a non-empty old value. -/
def RawKVEntry.isUpdate (r : RawKVEntry) : Bool :=
  r.opType == .put && !r.oldValue.isEmpty && !r.value.isEmpty

/-! ## The source manager's split-update predicate
(`cdc/processor/sourcemanager/manager.go`) -/

/-- `sourcemanager.PullerSplitUpdateMode`. -/
inductive PullerSplitUpdateMode where
  | modeNone
  | modeAtStart
  | modeAlways
deriving DecidableEq, Repr

/-- `sourcemanager.isOldUpdateKVEntry`: a non-nil UPDATE entry whose
commit ts precedes the table's replicating ts.  `getReplicaTs` is the
thunk the Go code calls (`getReplicaTs func() model.Ts`). -/
def isOldUpdateKVEntry (raw : Option RawKVEntry) (getReplicaTs : Unit → Ts) : Bool :=
  match raw with
  | none => false
  | some r => r.isUpdate && decide (r.crts < getReplicaTs ())

/-- The `shouldSplitKVEntry` closure built in `SourceManager.AddTable`:
nil or non-update entries are never split; otherwise the split-update
mode decides. -/
def shouldSplitKVEntry (mode : PullerSplitUpdateMode) (getReplicaTs : Unit → Ts)
    (raw : Option RawKVEntry) : Bool :=
  match raw with
  | none => false
  | some r =>
    if !r.isUpdate then false
    else
      match mode with
      | .modeNone => false
      | .modeAlways => true
      | .modeAtStart => isOldUpdateKVEntry (some r) getReplicaTs

/-! ## DDL jobs and schema snapshots (`cdc/puller/ddl_puller.go`) -/

/-- The DDL action types (`timodel.ActionType`) the embedded code
distinguishes.  All schema-level actions are merged into `schemaAction`
and all remaining table-level actions into `otherTableAction`, since the
puller only branches on the constructors listed here. -/
inductive ActionType where
  | schemaAction
  | createTable
  | createTables
  | renameTable
  | renameTables
  | otherTableAction
deriving DecidableEq, Repr

/-- Modelled from the spec: `filter.IsSchemaDDL` (package `pkg/filter`)
is not under src/.  Per the spec, schema DDLs are those acting on a
database rather than a table; in this embedding they are exactly the
`schemaAction` constructor. -/
def isSchemaDDL : ActionType → Bool
  | .schemaAction => true
  | _ => false

/-- `timodel.TableInfo` as the puller uses it: the table id and the
original-case name `Name.O`. -/
structure TableInfo where
  id : Int
  name : String
deriving DecidableEq, Repr

/-- What `schema.Snapshot.PhysicalTableByID` returns (a wrapped
`model.TableInfo`): `Name.O` plus the qualified `TableName`. -/
structure SnapTable where
  name : String
  schemaName : String
  tableName : String
deriving DecidableEq, Repr

/-- Modelled from the spec: the internals of `schema.Snapshot`
(package `cdc/entry/schema`) are not under src/.  Per the spec's data
model a snapshot maps table ids to table info, schema ids to schema
names, and records which table ids are ineligible (no unique not-null
key); it is embedded as finite association lists. -/
structure Snapshot where
  tables : List (Int × SnapTable)
  schemas : List (Int × String)
  ineligible : List Int
deriving DecidableEq, Repr

/-- `schema.Snapshot.PhysicalTableByID`. -/
def Snapshot.physicalTableByID (s : Snapshot) (id : Int) : Option SnapTable :=
  s.tables.lookup id

/-- `schema.Snapshot.SchemaByID` (only the schema's `Name.O` is used). -/
def Snapshot.schemaByID (s : Snapshot) (id : Int) : Option String :=
  s.schemas.lookup id

/-- `schema.Snapshot.IsIneligibleTableID`. -/
def Snapshot.isIneligibleTableID (s : Snapshot) (id : Int) : Bool :=
  s.ineligible.contains id

/-- The decoded raw arguments of a `RenameTables` job: the five parallel
arrays `job.DecodeArgs` yields in `handleRenameTables`.  JSON
marshalling round-trips these lists, so the embedding keeps them in
decoded form. -/
structure RenameArgs where
  oldSchemaIDs : List Int
  newSchemaIDs : List Int
  newTableNames : List String
  oldTableIDs : List Int
  oldSchemaNames : List String
deriving DecidableEq, Repr

/-- `job.BinlogInfo`. -/
structure BinlogInfo where
  finishedTS : Ts
  schemaVersion : Int
  tableInfo : Option TableInfo
  multipleTableInfos : List TableInfo
deriving DecidableEq, Repr

/-- `timodel.Job` as the puller uses it. -/
structure Job where
  id : Int
  type : ActionType
  schemaID : Int
  schemaName : String
  tableID : Int
  tableName : String
  query : String
  binlogInfo : BinlogInfo
  rawArgs : RenameArgs
deriving DecidableEq, Repr

/-- The errors the embedded puller code can surface.  External failures
(`FillSchemaName`, `SchemaStorage.HandleDDLJob`, DDL unmarshalling) are
collapsed to one constructor each since the puller only propagates
them. -/
inductive DDLError where
  | invalidDDLJob (jobID : Int)
  | syncRenameTableFailed (tableID : Int) (query : String)
  | eligibleBecameIneligible (query : String)
  | fillSchemaNameFailed
  | handleDDLFailed
  | unmarshalFailed
deriving DecidableEq, Repr

/-- `filter.Filter.ShouldDiscardDDL(jobType, schema, table)`. -/
abbrev DDLFilter := ActionType → String → String → Bool

/-! ### handleRenameTables -/

/-- One child of a `RenameTables` job: the i-th entry of
`multiTableInfos` together with the i-th entry of each of the five raw
argument arrays. -/
structure RenameChild where
  info : TableInfo
  oldSchemaID : Int
  newSchemaID : Int
  newTableName : String
  oldTableID : Int
  oldSchemaName : String
deriving DecidableEq, Repr

/-- Zip `multiTableInfos` with the five raw argument arrays into the
per-child view the `handleRenameTables` loop iterates over. -/
def zipRenameChildren : List TableInfo → List Int → List Int → List String → List Int →
    List String → List RenameChild
  | i :: is, a :: as, b :: bs, c :: cs, d :: ds, e :: es =>
    ⟨i, a, b, c, d, e⟩ :: zipRenameChildren is as bs cs ds es
  | _, _, _, _, _, _ => []

/-- `shouldDiscardOldTable` for one rename child: discard when the old
table is absent from the snapshot, otherwise ask the filter with the old
schema name and the old table's `Name.O`. -/
def shouldDiscardOldTable (f : DDLFilter) (snap : Snapshot) (ty : ActionType)
    (c : RenameChild) : Bool :=
  match snap.physicalTableByID c.info.id with
  | none => true
  | some oldTable => f ty c.oldSchemaName oldTable.name

/-- `shouldDiscardNewTable` for one rename child: discard when the new
schema is absent from the snapshot, otherwise ask the filter with the
new schema name and the new table name. -/
def shouldDiscardNewTable (f : DDLFilter) (snap : Snapshot) (ty : ActionType)
    (c : RenameChild) : Bool :=
  match snap.schemaByID c.newSchemaID with
  | none => true
  | some newSchemaName => f ty newSchemaName c.newTableName

/-- Outcome of the per-child rename rules in `handleRenameTables`. -/
inductive ChildDecision where
  | keep
  | skipChild
  | failChild
deriving DecidableEq, Repr

/-- The per-child rename rules of `handleRenameTables`: both identities
discarded → skip the child; old discarded but new kept → fail;
otherwise retain the child. -/
def renameChildDecision (f : DDLFilter) (snap : Snapshot) (ty : ActionType)
    (c : RenameChild) : ChildDecision :=
  if shouldDiscardOldTable f snap ty c && shouldDiscardNewTable f snap ty c then
    .skipChild
  else if shouldDiscardOldTable f snap ty c && !(shouldDiscardNewTable f snap ty c) then
    .failChild
  else
    .keep

/-- The filtering loop of `handleRenameTables`: walk the children in
order, dropping skipped ones, failing with `ErrSyncRenameTableFailed` at
the first erroring child, and keeping the rest. -/
def filterRenameChildren (f : DDLFilter) (snap : Snapshot) (ty : ActionType)
    (query : String) : List RenameChild → Except DDLError (List RenameChild)
  | [] => .ok []
  | c :: rest =>
    match renameChildDecision f snap ty c with
    | .skipChild => filterRenameChildren f snap ty query rest
    | .failChild => .error (.syncRenameTableFailed c.info.id query)
    | .keep =>
      match filterRenameChildren f snap ty query rest with
      | .error e => .error e
      | .ok l => .ok (c :: l)

/-- `ddlJobPullerImpl.handleRenameTables`: check the five raw argument
arrays are parallel to `multiTableInfos`, filter the children by the
per-child rules, and either skip the whole job (all filtered), fail, or
repack the job with the retained children and their five parallel
arrays. -/
def handleRenameTables (f : DDLFilter) (snap : Snapshot) (job : Job) :
    Bool × Option DDLError × Job :=
  let a := job.rawArgs
  let infos := job.binlogInfo.multipleTableInfos
  if infos.length ≠ a.oldSchemaIDs.length ∨ infos.length ≠ a.newSchemaIDs.length ∨
      infos.length ≠ a.newTableNames.length ∨ infos.length ≠ a.oldTableIDs.length ∨
      infos.length ≠ a.oldSchemaNames.length then
    (true, some (.invalidDDLJob job.id), job)
  else
    match filterRenameChildren f snap job.type job.query
        (zipRenameChildren infos a.oldSchemaIDs a.newSchemaIDs a.newTableNames
          a.oldTableIDs a.oldSchemaNames) with
    | .error e => (true, some e, job)
    | .ok remain =>
      if remain.isEmpty then (true, none, job)
      else
        (false, none,
          { job with
            rawArgs :=
              ⟨remain.map (·.oldSchemaID), remain.map (·.newSchemaID),
                remain.map (·.newTableName), remain.map (·.oldTableID),
                remain.map (·.oldSchemaName)⟩,
            binlogInfo :=
              { job.binlogInfo with multipleTableInfos := remain.map (·.info) } })

/-! ### The single RenameTable case of handleJob -/

/-- Outcome of the `ActionRenameTable` case of `handleJob`. -/
inductive RenameDecision where
  | keepJob
  | skipJob
  | fail (e : DDLError)
deriving DecidableEq, Repr

/-- `job.BinlogInfo.TableInfo.Name.O`, the rename target's new table
name.  Go dereferences the pointer unconditionally (rename jobs always
carry it); the `none` default is never reached under the theorems'
hypotheses. -/
def newTableNameOfJob (job : Job) : String :=
  match job.binlogInfo.tableInfo with
  | some ti => ti.name
  | none => ""

/-- The `ActionRenameTable` case of `handleJob`: when the old table is
missing from the snapshot, fail unless the new identity is discarded;
when present, fail if only the old identity is discarded, skip if both
are, keep otherwise. -/
def renameTableDecision (f : DDLFilter) (snap : Snapshot) (job : Job) : RenameDecision :=
  match snap.physicalTableByID job.tableID with
  | none =>
    if !(f job.type job.schemaName (newTableNameOfJob job)) then
      .fail (.syncRenameTableFailed job.tableID job.query)
    else
      .skipJob
  | some oldTable =>
    let skipByOldTableName := f job.type oldTable.schemaName oldTable.tableName
    let skipByNewTableName := f job.type job.schemaName (newTableNameOfJob job)
    if skipByOldTableName && !skipByNewTableName then
      .fail (.syncRenameTableFailed job.tableID job.query)
    else if skipByOldTableName && skipByNewTableName then
      .skipJob
    else
      .keepJob

/-! ### checkIneligibleTableDDL -/

/-- `ddlJobPullerImpl.checkIneligibleTableDDL`: given the snapshot after
the DDL was applied and the snapshot before, decide whether the job is
kept, silently skipped, or fails because an eligible table became
ineligible.  Schema DDLs are never checked; `CreateTables` always
passes; `CreateTable` passes when the created table is eligible. -/
def checkIneligibleTableDDL (snapAfter snapBefore : Snapshot) (job : Job) :
    Bool × Option DDLError :=
  if isSchemaDDL job.type then (false, none)
  else
    let newTableID :=
      match job.binlogInfo.tableInfo with
      | some ti => ti.id
      | none => 0
    if job.type == .createTable && !(snapAfter.isIneligibleTableID newTableID) then
      (false, none)
    else if job.type == .createTables then
      (false, none)
    else
      let oldTableID := job.tableID
      if !(snapAfter.isIneligibleTableID newTableID) then (false, none)
      else if (snapBefore.physicalTableByID oldTableID).isNone then (true, none)
      else if snapBefore.isIneligibleTableID oldTableID then (true, none)
      else (false, some (.eligibleBecameIneligible job.query))

/-! ### The DDL job puller state machine -/

/-- Modelled from the spec: `entry.SchemaStorage` is not under src/.
Per the spec it holds the latest schema snapshot and a monotonic
resolved ts; `HandleDDLJob` (which computes the next snapshot) and
`FillSchemaName` are passed to the puller functions as parameters. -/
structure SchemaStorage where
  lastSnapshot : Snapshot
  resolvedTs : Ts
deriving DecidableEq, Repr

/-- Modelled from the spec: `SchemaStorage.AdvanceResolvedTs` is
monotonic and ignored when the argument is ≤ the current value. -/
def SchemaStorage.advanceResolvedTs (s : SchemaStorage) (ts : Ts) : SchemaStorage :=
  if ts ≤ s.resolvedTs then s else { s with resolvedTs := ts }

/-- The mutable state of `ddlJobPullerImpl` the embedded handlers touch:
the puller's own `resolvedTs` and the schema storage. -/
structure PullerState where
  resolvedTs : Ts
  storage : SchemaStorage
deriving DecidableEq, Repr

/-- `snap.FillSchemaName(job)` only populates `job.SchemaName` and
`job.TableName` from the job's ids (spec §4.1); the external lookup is a
parameter of type `Snapshot → Job → Except Unit (String × String)` and
this applies its result to the job. -/
def applyFillSchemaName (job : Job) (names : String × String) : Job :=
  { job with schemaName := names.1, tableName := names.2 }

/-- The `switch job.Type` of `handleJob` on a job whose schema name has
been filled: rename jobs go through the rename rules; any other job gets
its table name from `BinlogInfo.TableInfo` (when present) and is
filtered by `ShouldDiscardDDL`.  Returns `(skip, error, job')`. -/
def handleJobTypeSwitch (f : DDLFilter) (snap : Snapshot) (job1 : Job) :
    Bool × Option DDLError × Job :=
  match job1.type with
  | .renameTables => handleRenameTables f snap job1
  | .renameTable =>
    match renameTableDecision f snap job1 with
    | .fail e => (true, some e, job1)
    | .skipJob => (true, none, job1)
    | .keepJob => (false, none, job1)
  | _ =>
    let job2 :=
      match job1.binlogInfo.tableInfo with
      | some ti => { job1 with tableName := ti.name }
      | none => job1
    (f job2.type job2.schemaName job2.tableName, none, job2)

/-- `ddlJobPullerImpl.handleJob`.  Returns `(skip, error, job', state')`
where `job'` is the (possibly repacked / name-filled) job the caller
emits and `state'` the updated puller state.  `fillSchemaName` embeds
`snap.FillSchemaName` and `handleDDLJobInStorage` embeds
`schemaStorage.HandleDDLJob`, both external to src/. -/
def handleJob (f : DDLFilter)
    (fillSchemaName : Snapshot → Job → Except Unit (String × String))
    (handleDDLJobInStorage : Snapshot → Job → Except Unit Snapshot)
    (st : PullerState) (job : Job) :
    Bool × Option DDLError × Job × PullerState :=
  if job.binlogInfo.finishedTS ≤ st.resolvedTs ∨ job.binlogInfo.schemaVersion = 0 then
    (true, none, job, st)
  else
    let snap := st.storage.lastSnapshot
    match fillSchemaName snap job with
    | .error _ =>
      if f job.type job.schemaName job.tableName then (true, none, job, st)
      else (true, some .fillSchemaNameFailed, job, st)
    | .ok names =>
      let job1 := applyFillSchemaName job names
      match handleJobTypeSwitch f snap job1 with
      | (_, some e, j) => (true, some e, j, st)
      | (true, none, j) => (true, none, j, st)
      | (false, none, j) =>
        match handleDDLJobInStorage snap j with
        | .error _ => (true, some .handleDDLFailed, j, st)
        | .ok snapAfter =>
          let st1 : PullerState :=
            { resolvedTs := j.binlogInfo.finishedTS,
              storage := { st.storage with lastSnapshot := snapAfter } }
          let check := checkIneligibleTableDDL st1.storage.lastSnapshot snap j
          (check.1, check.2, j, st1)

/-- `model.DDLJobEntry`: what the job puller sends downstream. -/
structure DDLJobEntry where
  job : Option Job
  opType : OpType
  crts : Ts
  err : Option DDLError
deriving DecidableEq, Repr

/-- `ddlJobPullerImpl.unmarshalDDL`: non-`PUT` entries decode to no job;
`PUT` entries are decoded by `entry.ParseDDLJob` (external to src/,
passed as `parseDDLJob`). -/
def unmarshalDDL (parseDDLJob : RawKVEntry → Except Unit (Option Job))
    (raw : RawKVEntry) : Except Unit (Option Job) :=
  if raw.opType != .put then .ok none
  else parseDDLJob raw

/-- The resolved-marker prologue of `handleRawKVEntry`: on an
`OpTypeResolved` entry, advance the schema storage's resolved ts and the
puller's own resolved ts (the latter only when the entry's CRTs is
strictly greater). -/
def advanceOnResolved (st : PullerState) (raw : RawKVEntry) : PullerState :=
  if raw.opType == .resolved then
    { storage := st.storage.advanceResolvedTs raw.crts,
      resolvedTs := if raw.crts > st.resolvedTs then raw.crts else st.resolvedTs }
  else st

/-- `ddlJobPullerImpl.handleRawKVEntry`: advance the resolved ts on
resolved markers, decode and handle a DDL job, and emit at most one
`DDLJobEntry` downstream; returns the new state, the emitted entries and
the error, if any. -/
def handleRawKVEntry (f : DDLFilter)
    (fillSchemaName : Snapshot → Job → Except Unit (String × String))
    (handleDDLJobInStorage : Snapshot → Job → Except Unit Snapshot)
    (parseDDLJob : RawKVEntry → Except Unit (Option Job))
    (st : PullerState) (ddlRawKV : Option RawKVEntry) :
    PullerState × List DDLJobEntry × Option DDLError :=
  match ddlRawKV with
  | none => (st, [], none)
  | some raw =>
    let st1 := advanceOnResolved st raw
    match unmarshalDDL parseDDLJob raw with
    | .error _ => (st1, [], some .unmarshalFailed)
    | .ok none => (st1, [⟨none, raw.opType, raw.crts, none⟩], none)
    | .ok (some job) =>
      match handleJob f fillSchemaName handleDDLJobInStorage st1 job with
      | (_, some e, _, st2) => (st2, [], some e)
      | (true, none, _, st2) => (st2, [], none)
      | (false, none, j, st2) => (st2, [⟨some j, raw.opType, raw.crts, none⟩], none)

/-- The raw-KV consumption loop of `ddlJobPullerImpl.run`: handle each
sorted entry in order, stopping at the first error. -/
def processRawKVEntries (f : DDLFilter)
    (fillSchemaName : Snapshot → Job → Except Unit (String × String))
    (handleDDLJobInStorage : Snapshot → Job → Except Unit Snapshot)
    (parseDDLJob : RawKVEntry → Except Unit (Option Job)) :
    PullerState → List (Option RawKVEntry) → PullerState × Option DDLError
  | st, [] => (st, none)
  | st, r :: rs =>
    match handleRawKVEntry f fillSchemaName handleDDLJobInStorage parseDDLJob st r with
    | (st1, _, some e) => (st1, some e)
    | (st1, _, none) =>
      processRawKVEntries f fillSchemaName handleDDLJobInStorage parseDDLJob st1 rs

/-! ### The owner-side DDL puller (`ddlPullerImpl`) -/

/-- The mutable state of `ddlPullerImpl`: its resolved ts, the pending
DDL queue and the id of the last accepted job. -/
structure DDLPullerState where
  resolvedTS : Ts
  pendingDDLJobs : List Job
  lastDDLJobID : Int
deriving DecidableEq, Repr

/-- `ddlPullerImpl.handleDDLJobEntry`: resolved entries advance the
resolved ts when strictly newer; an entry carrying an error fails;
entries repeating the immediately previously accepted job id are
ignored; otherwise the job is appended to the pending queue. -/
def handleDDLJobEntry (st : DDLPullerState) (e : DDLJobEntry) :
    Except DDLError DDLPullerState :=
  if e.opType == .resolved then
    .ok (if e.crts > st.resolvedTS then { st with resolvedTS := e.crts } else st)
  else
    match e.err with
    | some er => .error er
    | none =>
      match e.job with
      | none => .ok st
      | some job =>
        if job.id == st.lastDDLJobID then .ok st
        else
          .ok { st with
                pendingDDLJobs := st.pendingDDLJobs ++ [job],
                lastDDLJobID := job.id }

/-- The consumption loop of `ddlPullerImpl.Run` over the job puller's
output channel, stopping at the first error. -/
def processDDLJobEntries (st : DDLPullerState) :
    List DDLJobEntry → Except DDLError DDLPullerState
  | [] => .ok st
  | e :: es =>
    match handleDDLJobEntry st e with
    | .error er => .error er
    | .ok st1 => processDDLJobEntries st1 es

/-! ## The MySQL sink backend

Embedded from the `package mysql` portion of
`src/dm/syncer/checkpoint_test.go` (the file concatenates a DM
checkpoint test with the MySQL sink backend source): `mysqlBackend`
fields `events`/`rows`, `OnTxnEvent`, `prepareDMLs`,
`execDMLWithMaxRetries`, `isRetryableDMLError` and `Flush`.  SQL text
generation (`prepareUpdate`/`prepareDelete`/`prepareReplace`,
`sqlmodel.Gen*SQL`) is external to src/, so the embedding records only
the kind of DML each row produces. -/

/-- `model.RowChangedEvent` as `prepareDMLs` uses it: the commit and
replicating timestamps of the row and whether `PreColumns` / `Columns`
are non-empty (the per-row branch of `prepareDMLs` only tests
`len(row.PreColumns) != 0` and `len(row.Columns) != 0`). -/
structure RowChange where
  commitTs : Ts
  replicatingTs : Ts
  hasPreColumns : Bool
  hasPostColumns : Bool
deriving DecidableEq, Repr

/-- `eventsink.TxnCallbackableEvent`: the rows of the transaction, the
wait-flush hint (`event.Event.ToWaitFlush()`, external to src/ and kept
as a field), and the completion callback — `nil` or a callback
identified here by a token, matching the `event.Callback != nil` test in
`prepareDMLs`. -/
structure TxnEvent where
  rows : List RowChange
  waitFlush : Bool
  callback : Option Nat
deriving DecidableEq, Repr

/-- The `pmysql.Config` fields the embedded sink code reads:
`EnableOldValue`, `SafeMode` and `MaxTxnRow`. -/
structure SinkConfig where
  enableOldValue : Bool
  safeMode : Bool
  maxTxnRow : Nat
deriving DecidableEq, Repr

/-- The mutable buffer fields of `mysqlBackend`: the accepted events in
accept order and the running row total. -/
structure SinkBackend where
  events : List TxnEvent
  rows : Nat
deriving DecidableEq, Repr

/-- `mysqlBackend.OnTxnEvent`: append the event, add its row count to
the running total, and return
`event.Event.ToWaitFlush() || s.rows >= s.cfg.MaxTxnRow`. -/
def OnTxnEvent (cfg : SinkConfig) (s : SinkBackend) (e : TxnEvent) : SinkBackend × Bool :=
  let s1 := { s with events := s.events ++ [e], rows := s.rows + e.rows.length }
  (s1, e.waitFlush || decide (s1.rows ≥ cfg.maxTxnRow))

/-- The kind of SQL statement a row change is turned into. -/
inductive DMLKind where
  | insertDML
  | replaceDML
  | updateDML
  | deleteDML
deriving DecidableEq, Repr

/-- The per-row branch of `prepareDMLs`: UPDATE when both pre and post
columns are present (then `continue`), else DELETE when pre columns are
present, else INSERT/REPLACE when post columns are present.  For insert
rows the INSERT-vs-REPLACE choice follows the current
`translateToInsert` flag — visible in src/ in `batchSingleTxnDmls`
(`GenInsertSQL(DMLInsert)` vs `GenInsertSQL(DMLReplace)`); the per-row
`prepareReplace` receiving the same flag is external to src/. -/
def rowDMLs (translateToInsert : Bool) (r : RowChange) : List DMLKind :=
  if r.hasPreColumns && r.hasPostColumns then [.updateDML]
  else
    (if r.hasPreColumns then [.deleteDML] else []) ++
    (if r.hasPostColumns then
      [(if translateToInsert then DMLKind.insertDML else DMLKind.replaceDML)] else [])

/-- The DML kinds one event's row loop produces under the current
`translateToInsert` flag. -/
def eventDMLs (translateToInsert : Bool) (e : TxnEvent) : List DMLKind :=
  (e.rows.map (rowDMLs translateToInsert)).flatten

/-- `preparedDMLs` as the claims need it: the DML kinds in emission
order, the collected non-nil callbacks in accept order, and the row
count.  (`startTs`, `values` and `approximateSize` carry no content in
this embedding.) -/
structure PreparedDMLs where
  sqls : List DMLKind
  callbacks : List Nat
  rowCount : Nat
deriving DecidableEq, Repr

/-- The event loop of `mysqlBackend.prepareDMLs`, with the batch-DML and
batch-replace features disabled (the default per-row path; the
`translateToInsert` fold at lines 1042 and 1060 is shared by all
paths).  The flag starts as `EnableOldValue && !SafeMode` OUTSIDE the
loop and is reassigned
`translateToInsert = translateToInsert && firstRow.CommitTs > firstRow.ReplicatingTs`
at each event with at least one row, so a false value is sticky for the
rest of the batch.  Events with no rows are skipped entirely
(`continue` before the callback collection). -/
def prepareDMLsFrom (translateToInsert : Bool) : List TxnEvent → PreparedDMLs
  | [] => ⟨[], [], 0⟩
  | e :: rest =>
    match e.rows with
    | [] => prepareDMLsFrom translateToInsert rest
    | firstRow :: _ =>
      let flag := translateToInsert && decide (firstRow.replicatingTs < firstRow.commitTs)
      let tail := prepareDMLsFrom flag rest
      ⟨eventDMLs flag e ++ tail.sqls,
        (match e.callback with
         | some cb => cb :: tail.callbacks
         | none => tail.callbacks),
        e.rows.length + tail.rowCount⟩

/-- `mysqlBackend.prepareDMLs`: initialize
`translateToInsert := s.cfg.EnableOldValue && !s.cfg.SafeMode` and run
the event loop. -/
def prepareDMLs (cfg : SinkConfig) (events : List TxnEvent) : PreparedDMLs :=
  prepareDMLsFrom (cfg.enableOldValue && !cfg.safeMode) events

/-- The amended-claim view of the `translateToInsert` fold: the flag
value each non-empty event's rows are emitted under, obtained by
conjoining the incoming flag with the event's first-row condition and
threading the result to the rest of the batch.  Stated from the amended
claim's words, to be compared with `prepareDMLs` (which is derived from
the source). -/
def cumulativeFlags (translateToInsert : Bool) : List TxnEvent → List (Bool × TxnEvent)
  | [] => []
  | e :: rest =>
    match e.rows with
    | [] => cumulativeFlags translateToInsert rest
    | firstRow :: _ =>
      let flag := translateToInsert && decide (firstRow.replicatingTs < firstRow.commitTs)
      (flag, e) :: cumulativeFlags flag rest

/-- The MySQL error codes `isRetryableDMLError` switches on
(`getSQLErrCode`); every other code is `otherCode`. -/
inductive SQLErrCode where
  | errNoSuchTable
  | errBadDB
  | errDupEntry
  | otherCode
deriving DecidableEq, Repr

/-- A DML execution error as `isRetryableDMLError` inspects it: whether
`cerror.IsRetryableError(err)` holds (external classification from
`pkg/errors`, not under src/, kept as a field) and the SQL error code
`getSQLErrCode` extracts — `none` when the cause is not a
`*mysql.MySQLError`. -/
structure DMLError where
  retryableByCerror : Bool
  sqlErrCode : Option SQLErrCode
deriving DecidableEq, Repr

/-- `isRetryableDMLError`: not retryable unless
`cerror.IsRetryableError` holds; then errors without a SQL code are
retryable, and `ErrNoSuchTable`, `ErrBadDB` and `ErrDupEntry` are not
(duplicate entry is reported directly so the changefeed restarts). -/
def isRetryableDMLError (e : DMLError) : Bool :=
  if !e.retryableByCerror then false
  else
    match e.sqlErrCode with
    | none => true
    | some .errNoSuchTable => false
    | some .errBadDB => false
    | some .errDupEntry => false
    | some .otherCode => true

/-- Modelled from the spec: `retry.Do` (package `pkg/retry`, not under
src/) runs the operation with backoff up to the given number of tries,
stopping at the first success or the first error the predicate
classifies non-retryable.  The operation's outcome at attempt `i` is
given by the oracle `outcomes` (`none` = success); returns the final
error, if any, and the number of attempts performed. -/
def retryDo (isRetryable : DMLError → Bool) (outcomes : Nat → Option DMLError) :
    Nat → Nat → Option DMLError × Nat
  | i, 0 =>
    match outcomes i with
    | none => (none, i + 1)
    | some e => (some e, i + 1)
  | i, fuel + 1 =>
    match outcomes i with
    | none => (none, i + 1)
    | some e =>
      if !isRetryable e then (some e, i + 1)
      else retryDo isRetryable outcomes (i + 1) fuel

/-- `mysqlBackend.execDMLWithMaxRetries`: `retry.Do` with
`WithMaxTries(s.dmlMaxRetry)` and
`WithIsRetryableErr(isRetryableDMLError)`; each attempt's DB round-trip
is abstracted by the `outcomes` oracle. -/
def execDMLWithMaxRetries (dmlMaxRetry : Nat) (outcomes : Nat → Option DMLError) :
    Option DMLError × Nat :=
  retryDo isRetryableDMLError outcomes 0 (dmlMaxRetry - 1)

/-- `mysqlBackend.Flush`: a no-op when the running row total is 0;
otherwise prepare the DMLs, execute them with retry, and on failure
return the error with no callback invoked and the buffer untouched; on
success invoke the prepared callbacks (accept order) and reset the
buffer.  Returns `(error, invoked callbacks, new buffer state)`. -/
def Flush (dmlMaxRetry : Nat) (cfg : SinkConfig) (outcomes : Nat → Option DMLError)
    (s : SinkBackend) : Option DMLError × List Nat × SinkBackend :=
  if s.rows = 0 then (none, [], s)
  else
    let dmls := prepareDMLs cfg s.events
    match (execDMLWithMaxRetries dmlMaxRetry outcomes).1 with
    | some e => (some e, [], s)
    | none => (none, dmls.callbacks, { s with events := [], rows := 0 })

end Tiflow

namespace Tiflow

/-! ## Claim theorems: source manager -/

/-- C6: the split predicate built in `AddTable` returns false for nil or
non-UPDATE entries; for UPDATE entries it returns false under mode
`None`, true under mode `Always`, and under mode `AtStart` it returns
true exactly when the UPDATE's commit ts is strictly below the table's
replicating ts. -/
theorem sourcemanager_split_predicate_C6
    (getReplicaTs : Unit → Ts) (raw : Option RawKVEntry) :
    (∀ mode, (raw = none ∨ ∃ r, raw = some r ∧ r.isUpdate = false) →
        shouldSplitKVEntry mode getReplicaTs raw = false) ∧
    (∀ r, raw = some r → r.isUpdate = true →
        shouldSplitKVEntry .modeNone getReplicaTs raw = false ∧
        shouldSplitKVEntry .modeAlways getReplicaTs raw = true ∧
        (shouldSplitKVEntry .modeAtStart getReplicaTs raw = true ↔
          r.crts < getReplicaTs ())) := by
  constructor
  · intro mode h
    rcases h with h | ⟨r, hr, hu⟩
    · subst h; rfl
    · subst hr
      cases mode <;> simp [shouldSplitKVEntry, hu]
  · intro r hr hu
    subst hr
    refine ⟨by simp [shouldSplitKVEntry, hu], by simp [shouldSplitKVEntry, hu], ?_⟩
    simp [shouldSplitKVEntry, isOldUpdateKVEntry, hu]

/-- Witness for C6: with `replicating_ts = 100`, an UPDATE with
`commit_ts = 50` is split under `AtStart` and one with `commit_ts = 150`
is not; a DELETE entry is never split. -/
theorem sourcemanager_split_predicate_C6_witness :
    shouldSplitKVEntry .modeAtStart (fun _ => 100)
      (some ⟨.put, [1], [2], [3], 1, 50⟩) = true ∧
    shouldSplitKVEntry .modeAtStart (fun _ => 100)
      (some ⟨.put, [1], [2], [3], 1, 150⟩) = false ∧
    shouldSplitKVEntry .modeAlways (fun _ => 100)
      (some ⟨.delete, [1], [2], [3], 1, 50⟩) = false := by
  refine ⟨?_, ?_, ?_⟩
  · exact ((sourcemanager_split_predicate_C6 (fun _ => 100)
      (some ⟨.put, [1], [2], [3], 1, 50⟩)).2 _ rfl (by decide)).2.2.mpr (by decide)
  · have h := ((sourcemanager_split_predicate_C6 (fun _ => 100)
      (some ⟨.put, [1], [2], [3], 1, 150⟩)).2 _ rfl (by decide)).2.2
    by_contra hc
    exact absurd (h.mp (by revert hc; decide)) (by decide)
  · exact (sourcemanager_split_predicate_C6 (fun _ => 100)
      (some ⟨.delete, [1], [2], [3], 1, 50⟩)).1 _ (Or.inr ⟨_, rfl, by decide⟩)

/-! ## Claim theorems: handleRenameTables -/

/-- Helper: when no child triggers the error rule, the filtering loop of
`handleRenameTables` keeps exactly the children the per-child rules
decide to keep, in their original order. -/
theorem filterRenameChildren_eq_filter (f : DDLFilter) (snap : Snapshot)
    (ty : ActionType) (q : String) (l : List RenameChild)
    (h : ∀ c ∈ l, renameChildDecision f snap ty c ≠ .failChild) :
    filterRenameChildren f snap ty q l =
      .ok (l.filter (fun c => renameChildDecision f snap ty c == .keep)) := by
  induction l with
  | nil => rfl
  | cons c rest ih =>
    have hc := h c (List.mem_cons_self c rest)
    have hrest : ∀ x ∈ rest, renameChildDecision f snap ty x ≠ .failChild :=
      fun x hx => h x (List.mem_cons_of_mem c hx)
    cases hdec : renameChildDecision f snap ty c with
    | keep => simp [filterRenameChildren, hdec, ih hrest, List.filter_cons]
    | skipChild => simp [filterRenameChildren, hdec, ih hrest, List.filter_cons]
    | failChild => exact absurd hdec hc

/-- C2: for a `RenameTables` job whose five raw argument arrays are
parallel to `multi_table_infos`: if every child is discarded the job is
skipped with no error and left untouched; if no child errors and some
are kept, the single output job carries exactly the kept children in
order, with the five repacked arrays parallel to them; and mismatched
array lengths fail with the invalid-DDL-job error. -/
theorem ddl_puller_renameTables_C2 (f : DDLFilter) (snap : Snapshot) (job : Job) :
    (job.binlogInfo.multipleTableInfos.length = job.rawArgs.oldSchemaIDs.length ∧
     job.binlogInfo.multipleTableInfos.length = job.rawArgs.newSchemaIDs.length ∧
     job.binlogInfo.multipleTableInfos.length = job.rawArgs.newTableNames.length ∧
     job.binlogInfo.multipleTableInfos.length = job.rawArgs.oldTableIDs.length ∧
     job.binlogInfo.multipleTableInfos.length = job.rawArgs.oldSchemaNames.length →
     ∀ children kept : List RenameChild,
       children = zipRenameChildren job.binlogInfo.multipleTableInfos
         job.rawArgs.oldSchemaIDs job.rawArgs.newSchemaIDs job.rawArgs.newTableNames
         job.rawArgs.oldTableIDs job.rawArgs.oldSchemaNames →
       kept = children.filter (fun c => renameChildDecision f snap job.type c == .keep) →
       ((∀ c ∈ children, renameChildDecision f snap job.type c = .skipChild) →
          handleRenameTables f snap job = (true, none, job)) ∧
       ((∀ c ∈ children, renameChildDecision f snap job.type c ≠ .failChild) →
        kept ≠ [] →
          handleRenameTables f snap job =
            (false, none,
              { job with
                rawArgs :=
                  ⟨kept.map (·.oldSchemaID), kept.map (·.newSchemaID),
                    kept.map (·.newTableName), kept.map (·.oldTableID),
                    kept.map (·.oldSchemaName)⟩,
                binlogInfo :=
                  { job.binlogInfo with
                    multipleTableInfos := kept.map (·.info) } }) ∧
          (kept.map (·.oldSchemaID)).length = kept.length ∧
          (kept.map (·.newSchemaID)).length = kept.length ∧
          (kept.map (·.newTableName)).length = kept.length ∧
          (kept.map (·.oldTableID)).length = kept.length ∧
          (kept.map (·.oldSchemaName)).length = kept.length ∧
          (kept.map (·.info)).length = kept.length)) ∧
    (¬(job.binlogInfo.multipleTableInfos.length = job.rawArgs.oldSchemaIDs.length ∧
       job.binlogInfo.multipleTableInfos.length = job.rawArgs.newSchemaIDs.length ∧
       job.binlogInfo.multipleTableInfos.length = job.rawArgs.newTableNames.length ∧
       job.binlogInfo.multipleTableInfos.length = job.rawArgs.oldTableIDs.length ∧
       job.binlogInfo.multipleTableInfos.length = job.rawArgs.oldSchemaNames.length) →
      handleRenameTables f snap job = (true, some (.invalidDDLJob job.id), job)) := by
  constructor
  · rintro ⟨h1, h2, h3, h4, h5⟩ children kept hch hk
    have hcond : ¬(job.binlogInfo.multipleTableInfos.length ≠ job.rawArgs.oldSchemaIDs.length ∨
        job.binlogInfo.multipleTableInfos.length ≠ job.rawArgs.newSchemaIDs.length ∨
        job.binlogInfo.multipleTableInfos.length ≠ job.rawArgs.newTableNames.length ∨
        job.binlogInfo.multipleTableInfos.length ≠ job.rawArgs.oldTableIDs.length ∨
        job.binlogInfo.multipleTableInfos.length ≠ job.rawArgs.oldSchemaNames.length) := by
      push_neg
      exact ⟨h1, h2, h3, h4, h5⟩
    constructor
    · intro hall
      have hnofail : ∀ c ∈ children, renameChildDecision f snap job.type c ≠ .failChild := by
        intro c hc
        rw [hall c hc]
        intro hcon
        exact ChildDecision.noConfusion hcon
      have hfilter := filterRenameChildren_eq_filter f snap job.type job.query children hnofail
      have hkept_nil : kept = [] := by
        rw [hk]
        apply List.filter_eq_nil_iff.mpr
        intro c hc
        simp [hall c hc]
      simp only [handleRenameTables]
      rw [if_neg hcond, ← hch, hfilter]
      rw [← hk, hkept_nil]
      rfl
    · intro hnofail hne
      have hfilter := filterRenameChildren_eq_filter f snap job.type job.query children hnofail
      refine ⟨?_, by simp, by simp, by simp, by simp, by simp, by simp⟩
      simp only [handleRenameTables]
      rw [if_neg hcond, ← hch, hfilter, ← hk]
      have : kept.isEmpty = false := by
        cases kept with
        | nil => exact absurd rfl hne
        | cons a l => rfl
      simp [this]
  · intro hcond
    have hcond' : job.binlogInfo.multipleTableInfos.length ≠ job.rawArgs.oldSchemaIDs.length ∨
        job.binlogInfo.multipleTableInfos.length ≠ job.rawArgs.newSchemaIDs.length ∨
        job.binlogInfo.multipleTableInfos.length ≠ job.rawArgs.newTableNames.length ∨
        job.binlogInfo.multipleTableInfos.length ≠ job.rawArgs.oldTableIDs.length ∨
        job.binlogInfo.multipleTableInfos.length ≠ job.rawArgs.oldSchemaNames.length := by
      by_contra hcon
      push_neg at hcon
      exact hcond ⟨hcon.1, hcon.2.1, hcon.2.2.1, hcon.2.2.2.1, hcon.2.2.2.2⟩
    simp only [handleRenameTables]
    rw [if_pos hcond']

/-- Witness for C2 (the spec's end-to-end scenario 3): a rename of three
child tables where the filter discards child 2 and keeps children 1 and
3 emits one job with two children and five parallel arrays of length 2,
in order. -/
theorem ddl_puller_renameTables_C2_witness :
    handleRenameTables
      (fun _ _ table => table == "t2" || table == "t2n")
      ⟨[(1, ⟨"t1", "db", "t1"⟩), (2, ⟨"t2", "db", "t2"⟩), (3, ⟨"t3", "db", "t3"⟩)],
        [(10, "db")], []⟩
      ⟨100, .renameTables, 10, "db", 0, "", "q",
        ⟨9, 1, none, [⟨1, "t1n"⟩, ⟨2, "t2n"⟩, ⟨3, "t3n"⟩]⟩,
        ⟨[10, 10, 10], [10, 10, 10], ["t1n", "t2n", "t3n"], [1, 2, 3],
          ["db", "db", "db"]⟩⟩ =
      (false, none,
        ⟨100, .renameTables, 10, "db", 0, "", "q",
          ⟨9, 1, none, [⟨1, "t1n"⟩, ⟨3, "t3n"⟩]⟩,
          ⟨[10, 10], [10, 10], ["t1n", "t3n"], [1, 3], ["db", "db"]⟩⟩) := by
  have h := (ddl_puller_renameTables_C2
    (fun _ _ table => table == "t2" || table == "t2n")
    ⟨[(1, ⟨"t1", "db", "t1"⟩), (2, ⟨"t2", "db", "t2"⟩), (3, ⟨"t3", "db", "t3"⟩)],
      [(10, "db")], []⟩
    ⟨100, .renameTables, 10, "db", 0, "", "q",
      ⟨9, 1, none, [⟨1, "t1n"⟩, ⟨2, "t2n"⟩, ⟨3, "t3n"⟩]⟩,
      ⟨[10, 10, 10], [10, 10, 10], ["t1n", "t2n", "t3n"], [1, 2, 3],
        ["db", "db", "db"]⟩⟩).1
    (by decide) _ _ rfl rfl
  exact (h.2 (by decide) (by decide)).1

/-! ## Claim theorems: rename filtering rules (C3) -/

/-- C3: for a rename; old identity discarded (missing from the snapshot
or filtered) while the new identity is kept fails with
`SyncRenameTableFailed`; both identities discarded skips the job (or
child) without error; an old identity that is not discarded keeps the
job (or child).  The last conjunct propagates the single-rename decision
through `handleJob`. -/
theorem ddl_puller_rename_filter_C3 (f : DDLFilter) (snap : Snapshot) (job : Job)
    (ty : ActionType) (c : RenameChild) :
    (∀ oldDiscard newDiscard : Bool,
       oldDiscard = (match snap.physicalTableByID job.tableID with
         | none => true
         | some t => f job.type t.schemaName t.tableName) →
       newDiscard = f job.type job.schemaName (newTableNameOfJob job) →
       ((oldDiscard = true → newDiscard = false →
           renameTableDecision f snap job =
             .fail (.syncRenameTableFailed job.tableID job.query)) ∧
        (oldDiscard = true → newDiscard = true →
           renameTableDecision f snap job = .skipJob) ∧
        (oldDiscard = false → renameTableDecision f snap job = .keepJob))) ∧
    ((shouldDiscardOldTable f snap ty c = true →
        shouldDiscardNewTable f snap ty c = false →
        renameChildDecision f snap ty c = .failChild) ∧
     (shouldDiscardOldTable f snap ty c = true →
        shouldDiscardNewTable f snap ty c = true →
        renameChildDecision f snap ty c = .skipChild) ∧
     (shouldDiscardOldTable f snap ty c = false →
        renameChildDecision f snap ty c = .keep)) ∧
    (∀ (fill : Snapshot → Job → Except Unit (String × String))
       (hdl : Snapshot → Job → Except Unit Snapshot)
       (st : PullerState) (names : String × String) (e : DDLError),
       ¬(job.binlogInfo.finishedTS ≤ st.resolvedTs ∨ job.binlogInfo.schemaVersion = 0) →
       fill st.storage.lastSnapshot job = .ok names →
       (applyFillSchemaName job names).type = .renameTable →
       ((renameTableDecision f st.storage.lastSnapshot (applyFillSchemaName job names) =
           .fail e →
          handleJob f fill hdl st job =
            (true, some e, applyFillSchemaName job names, st)) ∧
        (renameTableDecision f st.storage.lastSnapshot (applyFillSchemaName job names) =
           .skipJob →
          handleJob f fill hdl st job =
            (true, none, applyFillSchemaName job names, st)))) := by
  refine ⟨?_, ?_, ?_⟩
  · intro oldDiscard newDiscard hod hnd
    subst hnd
    cases hpt : snap.physicalTableByID job.tableID with
    | none =>
      simp only [hpt] at hod
      subst hod
      refine ⟨fun _ h2 => by simp [renameTableDecision, hpt, h2],
        fun _ h2 => by simp [renameTableDecision, hpt, h2],
        fun h => absurd h (by decide)⟩
    | some t =>
      simp only [hpt] at hod
      subst hod
      refine ⟨fun h1 h2 => by simp [renameTableDecision, hpt, h1, h2],
        fun h1 h2 => by simp [renameTableDecision, hpt, h1, h2],
        fun h1 => by simp [renameTableDecision, hpt, h1]⟩
  · refine ⟨fun h1 h2 => by simp [renameChildDecision, h1, h2],
      fun h1 h2 => by simp [renameChildDecision, h1, h2],
      fun h1 => by simp [renameChildDecision, h1]⟩
  · intro fill hdl st names e hguard hfill htype
    constructor
    · intro hdec
      simp only [handleJob]
      rw [if_neg hguard, hfill]
      simp only [handleJobTypeSwitch, htype, hdec]
    · intro hdec
      simp only [handleJob]
      rw [if_neg hguard, hfill]
      simp only [handleJobTypeSwitch, htype, hdec]

/-- Witness for C3: with a snapshot holding table 7 = `db.told` and a
filter discarding `told` but keeping `tnew`, the single rename of table
7 to `tnew` fails with `SyncRenameTableFailed`; a child whose old and
new identities are both discarded is skipped. -/
theorem ddl_puller_rename_filter_C3_witness :
    renameTableDecision (fun _ _ table => table == "told")
      ⟨[(7, ⟨"told", "db", "told"⟩)], [(10, "db")], []⟩
      ⟨1, .renameTable, 10, "db", 7, "tnew", "q",
        ⟨9, 1, some ⟨8, "tnew"⟩, []⟩, ⟨[], [], [], [], []⟩⟩ =
      .fail (.syncRenameTableFailed 7 "q") ∧
    renameChildDecision (fun _ _ table => table == "told")
      ⟨[(7, ⟨"told", "db", "told"⟩)], [(10, "db")], []⟩ .renameTables
      ⟨⟨7, "x"⟩, 10, 10, "told", 7, "db"⟩ = .skipChild := by
  constructor
  · exact ((ddl_puller_rename_filter_C3 (fun _ _ table => table == "told")
      ⟨[(7, ⟨"told", "db", "told"⟩)], [(10, "db")], []⟩
      ⟨1, .renameTable, 10, "db", 7, "tnew", "q",
        ⟨9, 1, some ⟨8, "tnew"⟩, []⟩, ⟨[], [], [], [], []⟩⟩
      .renameTables ⟨⟨7, "x"⟩, 10, 10, "told", 7, "db"⟩).1
      true false (by decide) (by decide)).1 rfl rfl
  · exact (ddl_puller_rename_filter_C3 (fun _ _ table => table == "told")
      ⟨[(7, ⟨"told", "db", "told"⟩)], [(10, "db")], []⟩
      ⟨1, .renameTable, 10, "db", 7, "tnew", "q",
        ⟨9, 1, some ⟨8, "tnew"⟩, []⟩, ⟨[], [], [], [], []⟩⟩
      .renameTables ⟨⟨7, "x"⟩, 10, 10, "told", 7, "db"⟩).2.1.2.1
      (by decide) (by decide)

/-! ## Claim theorems: ineligibility check (C4) -/

/-- Counterexample to C4 as stated: a non-schema `CreateTables` job
whose resulting table (id 5) is ineligible and whose table did not exist
before is NOT silently skipped — `checkIneligibleTableDDL`
unconditionally keeps `CreateTables` jobs, returning `(false, none)`
instead of the `(true, none)` the claim requires for a table that did
not exist before the DDL. -/
theorem ddl_puller_ineligible_C4_counterexample :
    isSchemaDDL ActionType.createTables = false ∧
    Snapshot.isIneligibleTableID ⟨[], [], [5]⟩ 5 = true ∧
    Snapshot.physicalTableByID ⟨[], [], []⟩ 7 = none ∧
    checkIneligibleTableDDL ⟨[], [], [5]⟩ ⟨[], [], []⟩
      ⟨1, .createTables, 0, "", 7, "", "q", ⟨10, 1, some ⟨5, ""⟩, []⟩,
        ⟨[], [], [], [], []⟩⟩ = (false, none) ∧
    checkIneligibleTableDDL ⟨[], [], [5]⟩ ⟨[], [], []⟩
      ⟨1, .createTables, 0, "", 7, "", "q", ⟨10, 1, some ⟨5, ""⟩, []⟩,
        ⟨[], [], [], [], []⟩⟩ ≠ (true, none) := by
  decide

/-- C4 (amended): for every non-schema DDL job other than
`CreateTables` (which unconditionally bypasses the check): if the table
is ineligible after the DDL and was eligible before, handling fails with
the eligible-became-ineligible error; if it was ineligible before and
after, or did not exist before, the job is silently skipped with no
error. -/
theorem ddl_puller_ineligible_C4 (snapAfter snapBefore : Snapshot) (job : Job)
    (ti : TableInfo)
    (hns : isSchemaDDL job.type = false)
    (hct : job.type ≠ .createTables)
    (hti : job.binlogInfo.tableInfo = some ti)
    (hinel : snapAfter.isIneligibleTableID ti.id = true) :
    ((snapBefore.physicalTableByID job.tableID).isSome = true →
       snapBefore.isIneligibleTableID job.tableID = false →
       checkIneligibleTableDDL snapAfter snapBefore job =
         (false, some (.eligibleBecameIneligible job.query))) ∧
    ((snapBefore.physicalTableByID job.tableID).isSome = true →
       snapBefore.isIneligibleTableID job.tableID = true →
       checkIneligibleTableDDL snapAfter snapBefore job = (true, none)) ∧
    (snapBefore.physicalTableByID job.tableID = none →
       checkIneligibleTableDDL snapAfter snapBefore job = (true, none)) := by
  have hct' : (job.type == ActionType.createTables) = false := by
    simp only [beq_eq_false_iff_ne, ne_eq]
    exact hct
  refine ⟨?_, ?_, ?_⟩
  · intro hsome hb
    obtain ⟨t, ht⟩ := Option.isSome_iff_exists.mp hsome
    simp [checkIneligibleTableDDL, hns, hti, hinel, hct', ht, hb]
  · intro hsome hb
    obtain ⟨t, ht⟩ := Option.isSome_iff_exists.mp hsome
    simp [checkIneligibleTableDDL, hns, hti, hinel, hct', ht, hb]
  · intro hnone
    simp [checkIneligibleTableDDL, hns, hti, hinel, hct', hnone]

/-- Witness for C4 (amended): an `otherTableAction` DDL turning the
existing, eligible table 7 into the ineligible table 5 fails with the
eligible-became-ineligible error; the same DDL on a table that did not
exist before is skipped without error. -/
theorem ddl_puller_ineligible_C4_witness :
    checkIneligibleTableDDL ⟨[], [], [5]⟩ ⟨[(7, ⟨"t", "db", "t"⟩)], [], []⟩
      ⟨1, .otherTableAction, 0, "db", 7, "t", "q", ⟨10, 1, some ⟨5, "t"⟩, []⟩,
        ⟨[], [], [], [], []⟩⟩ =
      (false, some (.eligibleBecameIneligible "q")) ∧
    checkIneligibleTableDDL ⟨[], [], [5]⟩ ⟨[], [], []⟩
      ⟨1, .otherTableAction, 0, "db", 7, "t", "q", ⟨10, 1, some ⟨5, "t"⟩, []⟩,
        ⟨[], [], [], [], []⟩⟩ = (true, none) := by
  constructor
  · exact (ddl_puller_ineligible_C4 ⟨[], [], [5]⟩ ⟨[(7, ⟨"t", "db", "t"⟩)], [], []⟩
      ⟨1, .otherTableAction, 0, "db", 7, "t", "q", ⟨10, 1, some ⟨5, "t"⟩, []⟩,
        ⟨[], [], [], [], []⟩⟩ ⟨5, "t"⟩
      (by decide) (by decide) rfl (by decide)).1 (by decide) (by decide)
  · exact (ddl_puller_ineligible_C4 ⟨[], [], [5]⟩ ⟨[], [], []⟩
      ⟨1, .otherTableAction, 0, "db", 7, "t", "q", ⟨10, 1, some ⟨5, "t"⟩, []⟩,
        ⟨[], [], [], [], []⟩⟩ ⟨5, "t"⟩
      (by decide) (by decide) rfl (by decide)).2.2 rfl

/-! ## Claim theorems: resolved-ts monotonicity (C5) -/

/-- Helper: `handleRenameTables` never changes the job's
`BinlogInfo.FinishedTS` (it only repacks raw args and the multi-table
info list). -/
theorem handleRenameTables_finishedTS (f : DDLFilter) (snap : Snapshot) (job : Job) :
    (handleRenameTables f snap job).2.2.binlogInfo.finishedTS =
      job.binlogInfo.finishedTS := by
  simp only [handleRenameTables]
  split
  · rfl
  · split
    · rfl
    · split <;> rfl

/-- Helper: the type switch of `handleJob` never changes the job's
`BinlogInfo.FinishedTS`. -/
theorem handleJobTypeSwitch_finishedTS (f : DDLFilter) (snap : Snapshot) (job1 : Job) :
    (handleJobTypeSwitch f snap job1).2.2.binlogInfo.finishedTS =
      job1.binlogInfo.finishedTS := by
  simp only [handleJobTypeSwitch]
  split
  · exact handleRenameTables_finishedTS f snap job1
  · split <;> rfl
  · split <;> rfl

/-- Helper: `handleJob` only writes the puller's resolved ts with the
job's `FinishedTS`, and only after the stale-job guard has ensured that
value is strictly above the current resolved ts. -/
theorem handleJob_resolvedTs_le (f : DDLFilter)
    (fill : Snapshot → Job → Except Unit (String × String))
    (hdl : Snapshot → Job → Except Unit Snapshot)
    (st : PullerState) (job : Job) :
    st.resolvedTs ≤ (handleJob f fill hdl st job).2.2.2.resolvedTs ∧
    ((handleJob f fill hdl st job).2.2.2.resolvedTs ≠ st.resolvedTs →
      st.resolvedTs < (handleJob f fill hdl st job).2.2.2.resolvedTs) := by
  simp only [handleJob]
  split
  · simp
  · next hguard =>
    push_neg at hguard
    obtain ⟨hts, _⟩ := hguard
    split
    · split <;> simp
    · next names heq =>
      split
      · simp
      · simp
      · next j hswitch =>
        split
        · simp
        · have hfts : j.binlogInfo.finishedTS = job.binlogInfo.finishedTS := by
            have hpres := handleJobTypeSwitch_finishedTS f st.storage.lastSnapshot
              (applyFillSchemaName job names)
            rw [hswitch] at hpres
            simpa [applyFillSchemaName] using hpres
          simp only [hfts]
          exact ⟨le_of_lt hts, fun _ => hts⟩

/-- Helper: the resolved-marker prologue never lowers the puller's
resolved ts. -/
theorem advanceOnResolved_resolvedTs_le (st : PullerState) (raw : RawKVEntry) :
    st.resolvedTs ≤ (advanceOnResolved st raw).resolvedTs := by
  unfold advanceOnResolved
  split
  · show st.resolvedTs ≤ (if raw.crts > st.resolvedTs then raw.crts else st.resolvedTs)
    split
    · next h => exact le_of_lt h
    · exact le_refl _
  · exact le_refl _

/-- Helper: one `handleRawKVEntry` step never lowers the puller's
resolved ts. -/
theorem handleRawKVEntry_resolvedTs_le (f : DDLFilter)
    (fill : Snapshot → Job → Except Unit (String × String))
    (hdl : Snapshot → Job → Except Unit Snapshot)
    (parse : RawKVEntry → Except Unit (Option Job))
    (st : PullerState) (raw : Option RawKVEntry) :
    st.resolvedTs ≤ (handleRawKVEntry f fill hdl parse st raw).1.resolvedTs := by
  cases raw with
  | none => exact le_refl _
  | some r =>
    simp only [handleRawKVEntry]
    have h1 := advanceOnResolved_resolvedTs_le st r
    split
    · exact h1
    · exact h1
    · next job heq =>
      split <;>
        (rename_i heq2
         have h2 := (handleJob_resolvedTs_le f fill hdl (advanceOnResolved st r) job).1
         rw [heq2] at h2
         exact le_trans h1 h2)

/-- Helper: any run of the raw-KV consumption loop never lowers the
puller's resolved ts. -/
theorem processRawKVEntries_resolvedTs_le (f : DDLFilter)
    (fill : Snapshot → Job → Except Unit (String × String))
    (hdl : Snapshot → Job → Except Unit Snapshot)
    (parse : RawKVEntry → Except Unit (Option Job))
    (st : PullerState) (raws : List (Option RawKVEntry)) :
    st.resolvedTs ≤ (processRawKVEntries f fill hdl parse st raws).1.resolvedTs := by
  induction raws generalizing st with
  | nil => exact le_refl _
  | cons r rs ih =>
    simp only [processRawKVEntries]
    split <;>
      (rename_i heq
       have h1 := handleRawKVEntry_resolvedTs_le f fill hdl parse st r
       rw [heq] at h1)
    · exact h1
    · exact le_trans h1 (ih _)

/-- Helper: one `handleDDLJobEntry` step never lowers the owner-side
puller's resolved ts. -/
theorem handleDDLJobEntry_resolvedTS_le (st : DDLPullerState) (e : DDLJobEntry)
    (st' : DDLPullerState) (h : handleDDLJobEntry st e = .ok st') :
    st.resolvedTS ≤ st'.resolvedTS := by
  simp only [handleDDLJobEntry] at h
  split at h
  · injection h with h
    subst h
    by_cases hc : e.crts > st.resolvedTS
    · rw [if_pos hc]
      exact le_of_lt hc
    · rw [if_neg hc]
  · split at h
    · exact Except.noConfusion h
    · split at h
      · injection h with h
        subst h
        exact le_refl _
      · split at h
        · injection h with h
          subst h
          exact le_refl _
        · injection h with h
          subst h
          exact le_refl _

/-- Helper: any run of the owner-side consumption loop never lowers the
resolved ts. -/
theorem processDDLJobEntries_resolvedTS_le (st : DDLPullerState)
    (es : List DDLJobEntry) (st' : DDLPullerState)
    (h : processDDLJobEntries st es = .ok st') :
    st.resolvedTS ≤ st'.resolvedTS := by
  induction es generalizing st with
  | nil =>
    simp only [processDDLJobEntries] at h
    injection h with h
    subst h
    exact le_refl _
  | cons e rest ih =>
    simp only [processDDLJobEntries] at h
    split at h
    · exact Except.noConfusion h
    · next st1 heq =>
      exact le_trans (handleDDLJobEntry_resolvedTS_le st e st1 heq) (ih st1 h)

/-- C5: the DDL puller's resolved ts is non-decreasing — across every
raw KV entry, every sequence of raw KV entries, every job application in
`handleJob`, every DDL job entry and every sequence of DDL job entries,
the stored resolved timestamp never decreases, and whenever a step
changes it the new value is strictly greater than the previous one. -/
theorem ddl_puller_resolvedTs_monotonic_C5 :
    (∀ (f : DDLFilter) (fill : Snapshot → Job → Except Unit (String × String))
       (hdl : Snapshot → Job → Except Unit Snapshot)
       (parse : RawKVEntry → Except Unit (Option Job))
       (st : PullerState) (raw : Option RawKVEntry),
       st.resolvedTs ≤ (handleRawKVEntry f fill hdl parse st raw).1.resolvedTs ∧
       ((handleRawKVEntry f fill hdl parse st raw).1.resolvedTs ≠ st.resolvedTs →
         st.resolvedTs < (handleRawKVEntry f fill hdl parse st raw).1.resolvedTs)) ∧
    (∀ (f : DDLFilter) (fill : Snapshot → Job → Except Unit (String × String))
       (hdl : Snapshot → Job → Except Unit Snapshot)
       (parse : RawKVEntry → Except Unit (Option Job))
       (st : PullerState) (raws : List (Option RawKVEntry)),
       st.resolvedTs ≤ (processRawKVEntries f fill hdl parse st raws).1.resolvedTs) ∧
    (∀ (f : DDLFilter) (fill : Snapshot → Job → Except Unit (String × String))
       (hdl : Snapshot → Job → Except Unit Snapshot)
       (st : PullerState) (job : Job),
       st.resolvedTs ≤ (handleJob f fill hdl st job).2.2.2.resolvedTs ∧
       ((handleJob f fill hdl st job).2.2.2.resolvedTs ≠ st.resolvedTs →
         st.resolvedTs < (handleJob f fill hdl st job).2.2.2.resolvedTs)) ∧
    (∀ (st : DDLPullerState) (e : DDLJobEntry) (st' : DDLPullerState),
       handleDDLJobEntry st e = .ok st' →
       st.resolvedTS ≤ st'.resolvedTS ∧
       (st'.resolvedTS ≠ st.resolvedTS → st.resolvedTS < st'.resolvedTS)) ∧
    (∀ (st : DDLPullerState) (es : List DDLJobEntry) (st' : DDLPullerState),
       processDDLJobEntries st es = .ok st' →
       st.resolvedTS ≤ st'.resolvedTS) := by
  refine ⟨?_, ?_, ?_, ?_, ?_⟩
  · intro f fill hdl parse st raw
    have h := handleRawKVEntry_resolvedTs_le f fill hdl parse st raw
    exact ⟨h, fun hne => lt_of_le_of_ne h (Ne.symm hne)⟩
  · intro f fill hdl parse st raws
    exact processRawKVEntries_resolvedTs_le f fill hdl parse st raws
  · intro f fill hdl st job
    exact ⟨(handleJob_resolvedTs_le f fill hdl st job).1,
      (handleJob_resolvedTs_le f fill hdl st job).2⟩
  · intro st e st' h
    have hle := handleDDLJobEntry_resolvedTS_le st e st' h
    exact ⟨hle, fun hne => lt_of_le_of_ne hle (Ne.symm hne)⟩
  · intro st es st' h
    exact processDDLJobEntries_resolvedTS_le st es st' h

/-- Witness for C5: a resolved entry with CRTs 7 advances the owner-side
resolved ts from 3 to 7, a strict increase; and a resolved raw KV entry
with CRTs 9 advances the job puller's resolved ts from 3 to at least
3. -/
theorem ddl_puller_resolvedTs_monotonic_C5_witness :
    handleDDLJobEntry ⟨3, [], 0⟩ ⟨none, .resolved, 7, none⟩ = .ok ⟨7, [], 0⟩ ∧
    (3 : Ts) < (7 : Ts) ∧
    (3 : Ts) ≤ (handleRawKVEntry (fun _ _ _ => false) (fun _ _ => .error ())
      (fun _ _ => .error ()) (fun _ => .error ())
      ⟨3, ⟨⟨[], [], []⟩, 0⟩⟩ (some ⟨.resolved, [], [], [], 0, 9⟩)).1.resolvedTs := by
  refine ⟨rfl, ?_, ?_⟩
  · exact ((ddl_puller_resolvedTs_monotonic_C5).2.2.2.1 ⟨3, [], 0⟩
      ⟨none, .resolved, 7, none⟩ ⟨7, [], 0⟩ rfl).2 (by decide)
  · exact ((ddl_puller_resolvedTs_monotonic_C5).1 (fun _ _ _ => false)
      (fun _ _ => .error ()) (fun _ _ => .error ()) (fun _ => .error ())
      ⟨3, ⟨⟨[], [], []⟩, 0⟩⟩ (some ⟨.resolved, [], [], [], 0, 9⟩)).1

/-! ## Claim theorems: duplicate DDL job suppression (C9) -/

/-- Helper: once the last accepted job id equals `jid`, a run of
non-resolved, error-free entries all carrying jobs with id `jid` leaves
the owner-side puller state unchanged. -/
theorem processDDLJobEntries_same_id (jid : Int) (es : List DDLJobEntry)
    (hall : ∀ e ∈ es, e.opType ≠ .resolved ∧ e.err = none ∧
      ∃ job, e.job = some job ∧ job.id = jid)
    (st : DDLPullerState) (hlast : st.lastDDLJobID = jid) :
    processDDLJobEntries st es = .ok st := by
  induction es with
  | nil => rfl
  | cons e rest ih =>
    obtain ⟨hop, herr, job, hjob, hid⟩ := hall e (List.mem_cons_self e rest)
    have hop' : (e.opType == OpType.resolved) = false := beq_eq_false_iff_ne.mpr hop
    have hstep : handleDDLJobEntry st e = .ok st := by
      simp [handleDDLJobEntry, hop', herr, hjob, hid, hlast]
    simp only [processDDLJobEntries, hstep]
    exact ih (fun x hx => hall x (List.mem_cons_of_mem e hx))

/-- Helper: a run of non-resolved, error-free entries all carrying jobs
with the same id appends at most one job to the pending queue. -/
theorem processDDLJobEntries_dup_bound (jid : Int) (es : List DDLJobEntry) :
    ∀ st st' : DDLPullerState,
      (∀ e ∈ es, e.opType ≠ .resolved ∧ e.err = none ∧
        ∃ job, e.job = some job ∧ job.id = jid) →
      processDDLJobEntries st es = .ok st' →
      st'.pendingDDLJobs.length ≤ st.pendingDDLJobs.length + 1 := by
  induction es with
  | nil =>
    intro st st' _ h
    injection h with h
    subst h
    exact Nat.le_succ _
  | cons e rest ih =>
    intro st st' hall hrun
    obtain ⟨hop, herr, job, hjob, hid⟩ := hall e (List.mem_cons_self e rest)
    have hop' : (e.opType == OpType.resolved) = false := beq_eq_false_iff_ne.mpr hop
    have htail : ∀ x ∈ rest, x.opType ≠ .resolved ∧ x.err = none ∧
        ∃ job, x.job = some job ∧ job.id = jid :=
      fun x hx => hall x (List.mem_cons_of_mem e hx)
    simp only [processDDLJobEntries] at hrun
    by_cases hdup : job.id = st.lastDDLJobID
    · have hstep : handleDDLJobEntry st e = .ok st := by
        simp [handleDDLJobEntry, hop', herr, hjob, hdup]
      rw [hstep] at hrun
      exact ih st st' htail hrun
    · have hdup' : (job.id == st.lastDDLJobID) = false := beq_eq_false_iff_ne.mpr hdup
      have hstep : handleDDLJobEntry st e = .ok
          { st with pendingDDLJobs := st.pendingDDLJobs ++ [job],
                    lastDDLJobID := job.id } := by
        simp [handleDDLJobEntry, hop', herr, hjob, hdup']
      rw [hstep] at hrun
      have hrest := processDDLJobEntries_same_id jid rest htail
        { st with pendingDDLJobs := st.pendingDDLJobs ++ [job],
                  lastDDLJobID := job.id } (by simp [hid])
      have hrun' : processDDLJobEntries
          { st with pendingDDLJobs := st.pendingDDLJobs ++ [job],
                    lastDDLJobID := job.id } rest = .ok st' := hrun
      rw [hrest] at hrun'
      injection hrun' with h
      subst h
      simp

/-- C9: an entry whose job id equals the id of the immediately
previously accepted job is ignored (the state is unchanged), and any
consecutive run of non-resolved entries carrying jobs with one and the
same job id appends at most one job to the pending DDL queue. -/
theorem ddl_puller_duplicate_suppression_C9 (st : DDLPullerState)
    (es : List DDLJobEntry) (jid : Int) :
    (∀ (e : DDLJobEntry) (job : Job), e.opType ≠ .resolved → e.err = none →
       e.job = some job → job.id = st.lastDDLJobID →
       handleDDLJobEntry st e = .ok st) ∧
    ((∀ e ∈ es, e.opType ≠ .resolved ∧ e.err = none ∧
        ∃ job, e.job = some job ∧ job.id = jid) →
     ∀ st', processDDLJobEntries st es = .ok st' →
       st'.pendingDDLJobs.length ≤ st.pendingDDLJobs.length + 1) := by
  constructor
  · intro e job hop herr hjob hid
    have hop' : (e.opType == OpType.resolved) = false := beq_eq_false_iff_ne.mpr hop
    simp [handleDDLJobEntry, hop', herr, hjob, hid]
  · intro hall st' hrun
    exact processDDLJobEntries_dup_bound jid es st st' hall hrun

/-- Witness for C9: from a fresh state, three consecutive entries all
carrying job id 4 leave exactly one pending job. -/
theorem ddl_puller_duplicate_suppression_C9_witness :
    ∃ st' : DDLPullerState,
      processDDLJobEntries ⟨0, [], 0⟩
        [⟨some ⟨4, .createTable, 1, "db", 2, "t", "q", ⟨5, 1, none, []⟩,
            ⟨[], [], [], [], []⟩⟩, .put, 5, none⟩,
         ⟨some ⟨4, .createTable, 1, "db", 2, "t", "q", ⟨5, 1, none, []⟩,
            ⟨[], [], [], [], []⟩⟩, .put, 5, none⟩,
         ⟨some ⟨4, .createTable, 1, "db", 2, "t", "q", ⟨5, 1, none, []⟩,
            ⟨[], [], [], [], []⟩⟩, .put, 5, none⟩] = .ok st' ∧
      st'.pendingDDLJobs.length ≤ 1 := by
  refine ⟨⟨0, [⟨4, .createTable, 1, "db", 2, "t", "q", ⟨5, 1, none, []⟩,
    ⟨[], [], [], [], []⟩⟩], 4⟩, rfl, ?_⟩
  exact (ddl_puller_duplicate_suppression_C9 ⟨0, [], 0⟩
    [⟨some ⟨4, .createTable, 1, "db", 2, "t", "q", ⟨5, 1, none, []⟩,
        ⟨[], [], [], [], []⟩⟩, .put, 5, none⟩,
     ⟨some ⟨4, .createTable, 1, "db", 2, "t", "q", ⟨5, 1, none, []⟩,
        ⟨[], [], [], [], []⟩⟩, .put, 5, none⟩,
     ⟨some ⟨4, .createTable, 1, "db", 2, "t", "q", ⟨5, 1, none, []⟩,
        ⟨[], [], [], [], []⟩⟩, .put, 5, none⟩] 4).2
    (by
      intro e he
      fin_cases he <;>
        exact ⟨by decide, rfl, ⟨4, .createTable, 1, "db", 2, "t", "q",
          ⟨5, 1, none, []⟩, ⟨[], [], [], [], []⟩⟩, rfl, rfl⟩)
    _ rfl

/-! ## Claim theorems: stale or upstream-ignored jobs are skipped (C10) -/

/-- C10: a DDL job whose `FinishedTS` is at or below the puller's
resolved ts, or whose `SchemaVersion` is 0 (ignored upstream), is
skipped by `handleJob` with no error and no state change, and the
surrounding `handleRawKVEntry` emits nothing downstream and leaves the
puller state untouched. -/
theorem ddl_puller_stale_job_skip_C10 (f : DDLFilter)
    (fill : Snapshot → Job → Except Unit (String × String))
    (hdl : Snapshot → Job → Except Unit Snapshot)
    (parse : RawKVEntry → Except Unit (Option Job))
    (st : PullerState) (raw : RawKVEntry) (job : Job)
    (hput : raw.opType = .put)
    (hparse : parse raw = .ok (some job))
    (hstale : job.binlogInfo.finishedTS ≤ st.resolvedTs ∨
      job.binlogInfo.schemaVersion = 0) :
    handleJob f fill hdl st job = (true, none, job, st) ∧
    handleRawKVEntry f fill hdl parse st (some raw) = (st, [], none) := by
  have hj : handleJob f fill hdl st job = (true, none, job, st) := by
    simp only [handleJob]
    rw [if_pos hstale]
  refine ⟨hj, ?_⟩
  have hst1 : advanceOnResolved st raw = st := by
    simp [advanceOnResolved, hput]
  have hum : unmarshalDDL parse raw = .ok (some job) := by
    simp [unmarshalDDL, hput, hparse]
  simp only [handleRawKVEntry, hst1, hum, hj]

/-- Witness for C10: a job with `FinishedTS = 5` against a puller whose
resolved ts is already 10 is skipped with no downstream entry and no
state change. -/
theorem ddl_puller_stale_job_skip_C10_witness :
    handleRawKVEntry (fun _ _ _ => false) (fun _ _ => .error ())
      (fun _ _ => .error ())
      (fun _ => .ok (some ⟨4, .createTable, 1, "db", 2, "t", "q",
        ⟨5, 1, none, []⟩, ⟨[], [], [], [], []⟩⟩))
      ⟨10, ⟨⟨[], [], []⟩, 0⟩⟩ (some ⟨.put, [1], [2], [], 0, 5⟩) =
      (⟨10, ⟨⟨[], [], []⟩, 0⟩⟩, [], none) := by
  exact (ddl_puller_stale_job_skip_C10 (fun _ _ _ => false) (fun _ _ => .error ())
    (fun _ _ => .error ())
    (fun _ => .ok (some ⟨4, .createTable, 1, "db", 2, "t", "q",
      ⟨5, 1, none, []⟩, ⟨[], [], [], [], []⟩⟩))
    ⟨10, ⟨⟨[], [], []⟩, 0⟩⟩ ⟨.put, [1], [2], [], 0, 5⟩
    ⟨4, .createTable, 1, "db", 2, "t", "q", ⟨5, 1, none, []⟩,
      ⟨[], [], [], [], []⟩⟩
    rfl rfl (Or.inl (by decide))).2

/-! ## Claim theorems: sink backend (C1, C7, C8) -/

/-- Counterexample to C1 as stated: with old value enabled and safe mode
off, a single-event batch whose insert row has `commit_ts = 5 >
replicating_ts = 3` emits INSERT, but the same event preceded in one
batch by an event whose first row has `commit_ts = 2 ≤ replicating_ts =
9` emits REPLACE — even though the second event's own first-row
condition (the claim's per-event flag) still holds.  The decision is
therefore not independent of the other events in the batch. -/
theorem mysql_sink_translate_C1_counterexample :
    (true && !false && decide ((3 : Ts) < 5)) = true ∧
    (prepareDMLs ⟨true, false, 8⟩
      [⟨[⟨5, 3, false, true⟩], false, none⟩]).sqls = [DMLKind.insertDML] ∧
    (prepareDMLs ⟨true, false, 8⟩
      [⟨[⟨2, 9, false, true⟩], false, none⟩,
       ⟨[⟨5, 3, false, true⟩], false, none⟩]).sqls =
      [DMLKind.replaceDML, DMLKind.replaceDML] := by
  decide

/-- Helper: the DML kinds `prepareDMLs` emits are exactly the
concatenation, over the non-empty events, of each event's DMLs under
the cumulatively folded `translateToInsert` flag. -/
theorem prepareDMLsFrom_sqls (flag : Bool) (events : List TxnEvent) :
    (prepareDMLsFrom flag events).sqls =
      ((cumulativeFlags flag events).map (fun p => eventDMLs p.1 p.2)).flatten := by
  induction events generalizing flag with
  | nil => rfl
  | cons e rest ih =>
    cases hrows : e.rows with
    | nil => simp only [prepareDMLsFrom, cumulativeFlags, hrows, ih]
    | cons r rs =>
      simp only [prepareDMLsFrom, cumulativeFlags, hrows, List.map_cons,
        List.flatten_cons, ih]

/-- Helper: the callbacks `prepareDMLs` collects are the non-nil
callbacks of the events with at least one row, in accept order,
independent of the `translateToInsert` flag. -/
theorem prepareDMLsFrom_callbacks (flag : Bool) (events : List TxnEvent) :
    (prepareDMLsFrom flag events).callbacks =
      (events.filter (fun e => !e.rows.isEmpty)).filterMap (·.callback) := by
  induction events generalizing flag with
  | nil => rfl
  | cons e rest ih =>
    cases hrows : e.rows with
    | nil =>
      simp [prepareDMLsFrom, hrows, List.filter_cons, ih]
    | cons r rs =>
      cases hcb : e.callback with
      | none =>
        simp [prepareDMLsFrom, hrows, List.filter_cons, ih, hcb]
      | some cb =>
        simp [prepareDMLsFrom, hrows, List.filter_cons, ih, hcb]

/-- C1 (amended): in `prepareDMLs` the `translateToInsert` flag is
initialized once per batch as `enable_old_value ∧ ¬safe_mode` and then
folded cumulatively over the buffered events in order — at each event
with at least one row it is conjoined with that event's first-row
condition `commit_ts > replicating_ts`, and that cumulative value (not a
per-event one) decides whether the event's insert rows emit INSERT or
REPLACE; once false the flag stays false for the rest of the batch. -/
theorem mysql_sink_translate_to_insert_C1 (cfg : SinkConfig) (events : List TxnEvent) :
    (prepareDMLs cfg events).sqls =
      ((cumulativeFlags (cfg.enableOldValue && !cfg.safeMode) events).map
        (fun p => eventDMLs p.1 p.2)).flatten ∧
    (∀ (flag : Bool) (row : RowChange), row.hasPreColumns = false →
       row.hasPostColumns = true →
       rowDMLs flag row =
         [if flag then DMLKind.insertDML else DMLKind.replaceDML]) ∧
    (∀ p ∈ cumulativeFlags false events, p.1 = false) ∧
    (∀ (e : TxnEvent) (r : RowChange) (rest : List TxnEvent) (init : Bool),
       e.rows.head? = some r →
       cumulativeFlags init (e :: rest) =
         (init && decide (r.replicatingTs < r.commitTs), e) ::
           cumulativeFlags (init && decide (r.replicatingTs < r.commitTs)) rest) := by
  refine ⟨prepareDMLsFrom_sqls _ events, ?_, ?_, ?_⟩
  · intro flag row h1 h2
    simp [rowDMLs, h1, h2]
  · intro p hp
    induction events with
    | nil => cases hp
    | cons e rest ih =>
      revert hp
      cases hrows : e.rows with
      | nil =>
        intro hp
        exact ih (by simpa [cumulativeFlags, hrows] using hp)
      | cons r rs =>
        intro hp
        rcases (by simpa [cumulativeFlags, hrows] using hp :
            p = ((false && decide (r.replicatingTs < r.commitTs)), e) ∨
              p ∈ cumulativeFlags (false && decide (r.replicatingTs < r.commitTs)) rest)
          with h | h
        · rw [h]
          simp
        · exact ih (by simpa using h)
  · intro e r rest init hr
    cases hrows : e.rows with
    | nil => rw [hrows] at hr; cases hr
    | cons a l =>
      rw [hrows] at hr
      injection hr with hr
      subst hr
      simp only [cumulativeFlags, hrows]

/-- Witness for C1 (amended): one insert row with the flag true emits
INSERT, with the flag false emits REPLACE; and the fold over a batch
whose first event fails its first-row condition marks both events'
flags false. -/
theorem mysql_sink_translate_to_insert_C1_witness :
    rowDMLs true ⟨5, 3, false, true⟩ = [DMLKind.insertDML] ∧
    rowDMLs false ⟨5, 3, false, true⟩ = [DMLKind.replaceDML] ∧
    cumulativeFlags true
      [(⟨[⟨2, 9, false, true⟩], false, none⟩ : TxnEvent),
        ⟨[⟨5, 3, false, true⟩], false, none⟩] =
      [(false, ⟨[⟨2, 9, false, true⟩], false, none⟩),
        (false, ⟨[⟨5, 3, false, true⟩], false, none⟩)] := by
  refine ⟨?_, ?_, ?_⟩
  · have h := (mysql_sink_translate_to_insert_C1 ⟨true, false, 8⟩ []).2.1 true
      ⟨5, 3, false, true⟩ rfl rfl
    simpa using h
  · have h := (mysql_sink_translate_to_insert_C1 ⟨true, false, 8⟩ []).2.1 false
      ⟨5, 3, false, true⟩ rfl rfl
    simpa using h
  · have h := (mysql_sink_translate_to_insert_C1 ⟨true, false, 8⟩
      [(⟨[⟨2, 9, false, true⟩], false, none⟩ : TxnEvent),
        ⟨[⟨5, 3, false, true⟩], false, none⟩]).2.2.2
      ⟨[⟨2, 9, false, true⟩], false, none⟩ ⟨2, 9, false, true⟩
      [⟨[⟨5, 3, false, true⟩], false, none⟩] true rfl
    rw [h]
    decide

/-- C7: duplicate-entry, unknown-table and unknown-DB SQL errors are
classified non-retryable regardless of the generic retryability of the
error; a flush whose first attempt hits one returns it after exactly
one attempt; no completion callback is invoked on any flush failure;
and on success the callbacks invoked are exactly the buffered events'
non-nil callbacks in accept order. -/
theorem mysql_sink_nonretryable_C7 (dmlMaxRetry : Nat) (cfg : SinkConfig)
    (outcomes : Nat → Option DMLError) (s : SinkBackend) :
    (∀ e : DMLError,
       (e.sqlErrCode = some .errDupEntry ∨ e.sqlErrCode = some .errNoSuchTable ∨
         e.sqlErrCode = some .errBadDB) →
       isRetryableDMLError e = false) ∧
    (∀ e : DMLError, outcomes 0 = some e → isRetryableDMLError e = false →
       execDMLWithMaxRetries dmlMaxRetry outcomes = (some e, 1) ∧
       (s.rows ≠ 0 → Flush dmlMaxRetry cfg outcomes s = (some e, [], s))) ∧
    (∀ e : DMLError, (execDMLWithMaxRetries dmlMaxRetry outcomes).1 = some e →
       (Flush dmlMaxRetry cfg outcomes s).2.1 = []) ∧
    ((execDMLWithMaxRetries dmlMaxRetry outcomes).1 = none → s.rows ≠ 0 →
       (Flush dmlMaxRetry cfg outcomes s).2.1 =
         (s.events.filter (fun e => !e.rows.isEmpty)).filterMap (·.callback)) := by
  refine ⟨?_, ?_, ?_, ?_⟩
  · intro e hc
    cases hr : e.retryableByCerror with
    | false => simp [isRetryableDMLError, hr]
    | true =>
      rcases hc with h | h | h <;> simp [isRetryableDMLError, hr, h]
  · intro e he hnr
    have hexec : execDMLWithMaxRetries dmlMaxRetry outcomes = (some e, 1) := by
      unfold execDMLWithMaxRetries
      cases hm : dmlMaxRetry - 1 with
      | zero => simp [retryDo, he]
      | succ fuel => simp [retryDo, he, hnr]
    refine ⟨hexec, fun hne => ?_⟩
    simp only [Flush]
    rw [if_neg hne, hexec]
  · intro e herr
    by_cases hrows : s.rows = 0
    · simp [Flush, hrows]
    · simp only [Flush]
      rw [if_neg hrows, herr]
  · intro hnone hne
    simp only [Flush]
    rw [if_neg hne, hnone]
    simp only [prepareDMLs, prepareDMLsFrom_callbacks]

/-- Witness for C7 (the spec's end-to-end scenario 6): a flush whose
first attempt fails with a duplicate-entry error returns it after one
attempt and invokes no callback, leaving the buffer untouched. -/
theorem mysql_sink_nonretryable_C7_witness :
    execDMLWithMaxRetries 8 (fun _ => some ⟨true, some .errDupEntry⟩) =
      (some ⟨true, some .errDupEntry⟩, 1) ∧
    Flush 8 ⟨true, false, 8⟩ (fun _ => some ⟨true, some .errDupEntry⟩)
      ⟨[⟨[⟨5, 3, false, true⟩], false, some 0⟩], 1⟩ =
      (some ⟨true, some .errDupEntry⟩, [],
        ⟨[⟨[⟨5, 3, false, true⟩], false, some 0⟩], 1⟩) := by
  have h := (mysql_sink_nonretryable_C7 8 ⟨true, false, 8⟩
    (fun _ => some ⟨true, some .errDupEntry⟩)
    ⟨[⟨[⟨5, 3, false, true⟩], false, some 0⟩], 1⟩).2.1
    ⟨true, some .errDupEntry⟩ rfl (by decide)
  exact ⟨h.1, h.2 (by decide)⟩

/-- C8: `OnTxnEvent` appends the event to the buffer, adds its row
count to the running total, and returns needFlush exactly when the
event carries the wait-flush hint or the running total (after the
addition) is at least `MaxTxnRow`. -/
theorem mysql_sink_onTxnEvent_C8 (cfg : SinkConfig) (s : SinkBackend) (e : TxnEvent) :
    (OnTxnEvent cfg s e).1.events = s.events ++ [e] ∧
    (OnTxnEvent cfg s e).1.rows = s.rows + e.rows.length ∧
    ((OnTxnEvent cfg s e).2 = true ↔
      (e.waitFlush = true ∨ cfg.maxTxnRow ≤ s.rows + e.rows.length)) := by
  refine ⟨rfl, rfl, ?_⟩
  simp [OnTxnEvent]

end Tiflow
